import Mathlib

/-!
Shallow embedding of the file-selection / validation / upload core of the
`FileUploader` React component (source: `src/unnamed/part_001`, symbol
`FileUploader`).  Browser `File` objects are modelled by their observable
fields (name, size in bytes, declared MIME type); the component's React state
(`files`, `validationErrors`, `uploadProgress`, `isUploading`, `uploadStatus`)
is an explicit record, and the callback props (`onFileSelected`,
`onValidationError`, `onUploadProgress`, `onUploadSuccess`, `onUploadError`)
become an emitted event list.  The JS `Record<string, string>` used for
per-file validation errors is modelled as an insertion-ordered association
list with overwrite-on-assign, matching JS object assignment semantics.
-/

namespace FileUplift

/-- A candidate file: the fields of a browser `File` that the component reads
(`file.name`, `file.size`, `file.type`). -/
structure File where
  name : String
  size : Nat
  mime : String
  deriving DecidableEq, Repr

/-- The configuration props of `FileUploader` that the selection/upload logic
reads (presentation-only props are omitted). -/
structure Config where
  multiple : Bool
  maxFileSize : Nat
  maxTotalSize : Nat
  maxFiles : Nat
  allowedTypes : List String
  allowedMimeTypes : List String
  autoUpload : Bool
  uploadUrl : Option String
  deriving DecidableEq, Repr

/-- The distinct per-file rejection reasons produced inside the validation
loop of `handleFileChange`.  In the source these are the error strings
`"File exceeds maximum size of ..."`, `"File type <ext> not allowed"`,
`"File type <mime> not allowed"`, `"File failed custom validation"` and the
catch-branch `"Error validating file"`. -/
inductive Reason where
  | sizeExceeded
  | typeNotAllowed (ext : String)
  | mimeNotAllowed (mime : String)
  | customFailed
  | validationError
  deriving DecidableEq, Repr

/-- The `uploadStatus` state: `'idle' | 'uploading' | 'success' | 'error'`. -/
inductive Status where
  | idle
  | uploading
  | success
  | error
  deriving DecidableEq, Repr

/-- The component state touched by the selection and upload logic. -/
structure UploaderState where
  files : List File
  validationErrors : List (String × Reason)
  uploadProgress : Nat
  isUploading : Bool
  uploadStatus : Status
  deriving DecidableEq, Repr

/-- Batch-level validation errors passed to `onValidationError`:
`"Maximum <maxFiles> files allowed"`, `"Total size exceeds maximum of ..."`,
or the joined per-file error map. -/
inductive VError where
  | tooManyFiles
  | totalSizeExceeded
  | fileErrors (errors : List (String × Reason))
  deriving DecidableEq, Repr

/-- Terminal upload errors: `"Upload failed with status <status>"` (the
non-2xx branch of the XHR `load` handler) and `"Network error during upload"`
(the XHR `error` handler). -/
inductive UploadError where
  | serverError (status : Nat)
  | networkError
  deriving DecidableEq, Repr

/-- Callback invocations observable by the caller, in invocation order. -/
inductive Event where
  | fileSelected (files : List File)
  | uploadRequested (files : List File)
  | validationError (e : VError)
  | uploadProgress (percent : Nat)
  | uploadSuccess (files : List File)
  | uploadError (e : UploadError)
  deriving DecidableEq, Repr

/-- The JS expression `` `.${file.name.split('.').pop()?.toLowerCase()}` ``:
the last `'.'`-separated component of the name (the whole name when it has no
`'.'`), lower-cased, with a leading dot re-attached.  The fold computes
exactly `split('.').pop()`: it restarts the accumulator at each `'.'`. -/
def fileExtension (name : String) : String :=
  "." ++ String.mk ((name.data.foldl
    (fun acc c => if c = '.' then [] else acc ++ [c]) []).map Char.toLower)

/-- One iteration of the validation loop of `handleFileChange` (lines 73–109):
size check, then extension check (only when `allowedTypes` is non-empty), then
MIME check (only when `allowedMimeTypes` is non-empty), then the optional
custom validator, whose thrown exception (`Except.error`) is caught by the
surrounding `try` and recorded as `"Error validating file"`.  `none` means the
file is pushed onto `validFiles`. -/
def validateOne (cfg : Config) (custom : Option (File → Except Unit Bool))
    (f : File) : Option Reason :=
  if cfg.maxFileSize < f.size then
    some Reason.sizeExceeded
  else if cfg.allowedTypes ≠ [] ∧ fileExtension f.name ∉ cfg.allowedTypes then
    some (Reason.typeNotAllowed (fileExtension f.name))
  else if cfg.allowedMimeTypes ≠ [] ∧ f.mime ∉ cfg.allowedMimeTypes then
    some (Reason.mimeNotAllowed f.mime)
  else
    match custom with
    | none => none
    | some p =>
      match p f with
      | Except.ok true => none
      | Except.ok false => some Reason.customFailed
      | Except.error _ => some Reason.validationError

/-- JS object assignment `rec[k] = v`: overwrite the value when the key is
present, otherwise append the new entry (insertion order preserved). -/
def recSet (r : List (String × Reason)) (k : String) (v : Reason) :
    List (String × Reason) :=
  match r with
  | [] => [(k, v)]
  | p :: rest => if p.1 = k then (k, v) :: rest else p :: recSet rest k v

/-- JS object read `rec[k]`. -/
def recLookup (r : List (String × Reason)) (k : String) : Option Reason :=
  match r with
  | [] => none
  | p :: rest => if p.1 = k then some p.2 else recLookup rest k

/-- JS object spread `{...a, ...b}`: assign every entry of `b` into `a`. -/
def recMerge (a b : List (String × Reason)) : List (String × Reason) :=
  b.foldl (fun acc p => recSet acc p.1 p.2) a

/-- One step of the `for (const file of fileArray)` loop: a rejected file is
recorded under its name in `newErrors`, an accepted file is pushed onto
`validFiles`. -/
def pbStep (cfg : Config) (custom : Option (File → Except Unit Bool))
    (acc : List (String × Reason) × List File) (f : File) :
    List (String × Reason) × List File :=
  match validateOne cfg custom f with
  | some r => (recSet acc.1 f.name r, acc.2)
  | none => (acc.1, acc.2 ++ [f])

/-- The whole validation loop of `handleFileChange`: returns
`(newErrors, validFiles)`. -/
def processBatch (cfg : Config) (custom : Option (File → Except Unit Bool))
    (batch : List File) : List (String × Reason) × List File :=
  batch.foldl (pbStep cfg custom) ([], [])

/-- `files.reduce((acc, file) => acc + file.size, 0)`. -/
def totalSize (files : List File) : Nat :=
  files.foldl (fun acc f => acc + f.size) 0

/-- The events emitted when at least one file of the batch was accepted:
`onFileSelected(validFiles)` and, when `autoUpload` is set and an upload URL
is configured, the nested `handleUpload(validFiles)` invocation. -/
def selectionEvents (cfg : Config) (validFiles : List File) : List Event :=
  if 0 < validFiles.length then
    Event.fileSelected validFiles ::
      (if cfg.autoUpload ∧ cfg.uploadUrl.isSome then
        [Event.uploadRequested validFiles] else [])
  else []

/-- `if (validFiles.length > 0) setFiles(prev => [...prev, ...validFiles])`. -/
def addValid (st : UploaderState) (validFiles : List File) : UploaderState :=
  if 0 < validFiles.length then { st with files := st.files ++ validFiles }
  else st

/-- Multiple-file mode:
`setValidationErrors(prev => ({...prev, ...newErrors}))`, run only when
`newErrors` is non-empty. -/
def mergeErrors (st : UploaderState) (newErrors : List (String × Reason)) :
    UploaderState :=
  if 0 < newErrors.length then
    { st with validationErrors := recMerge st.validationErrors newErrors }
  else st

/-- Single-file mode: `setValidationErrors(newErrors)`, run only when
`newErrors` is non-empty. -/
def replaceErrors (st : UploaderState) (newErrors : List (String × Reason)) :
    UploaderState :=
  if 0 < newErrors.length then { st with validationErrors := newErrors }
  else st

/-- `onValidationError(new Error(allErrors))`, fired only when `newErrors` is
non-empty. -/
def errorEvents (newErrors : List (String × Reason)) : List Event :=
  if 0 < newErrors.length then
    [Event.validationError (VError.fileErrors newErrors)]
  else []

/-- Multiple-file mode admission (lines 111–137 and 157–172): the count check
against `maxFiles` runs first, then the total-size check against
`maxTotalSize`; either failure returns early with the whole state untouched
(the per-file `newErrors` of the batch are discarded).  Otherwise the valid
files are appended and the per-file errors merged and reported. -/
def multiAdmit (cfg : Config) (st : UploaderState)
    (newErrors : List (String × Reason)) (validFiles : List File) :
    UploaderState × List Event :=
  if cfg.maxFiles < st.files.length + validFiles.length then
    (st, [Event.validationError VError.tooManyFiles])
  else if cfg.maxTotalSize < totalSize st.files + totalSize validFiles then
    (st, [Event.validationError VError.totalSizeExceeded])
  else
    (mergeErrors (addValid st validFiles) newErrors,
      selectionEvents cfg validFiles ++ errorEvents newErrors)

/-- Single-file mode admission (lines 138–155): `setFiles(validFiles)`
unconditionally replaces the selection (no `maxFiles`/`maxTotalSize` check),
then the selection and error callbacks fire. -/
def singleAdmit (cfg : Config) (st : UploaderState)
    (newErrors : List (String × Reason)) (validFiles : List File) :
    UploaderState × List Event :=
  (replaceErrors { st with files := validFiles } newErrors,
    selectionEvents cfg validFiles ++ errorEvents newErrors)

/-- `handleFileChange(selectedFiles)` (lines 65–173): `none` models a null
`FileList` (immediate return); otherwise the batch is validated file by file
and admitted according to the mode. -/
def handleFileChange (cfg : Config) (custom : Option (File → Except Unit Bool))
    (st : UploaderState) (selectedFiles : Option (List File)) :
    UploaderState × List Event :=
  match selectedFiles with
  | none => (st, [])
  | some fileArray =>
    let pr := processBatch cfg custom fileArray
    if cfg.multiple then multiAdmit cfg st pr.1 pr.2
    else singleAdmit cfg st pr.1 pr.2

/-- An XHR upload `progress` event: `lengthComputable`, `loaded`, `total`. -/
structure ProgressInfo where
  lengthComputable : Bool
  loaded : Nat
  total : Nat
  deriving DecidableEq, Repr

/-- How the single XHR attempt terminates: a `load` event carrying an HTTP
status, or a transport-level `error` event. -/
inductive TransportOutcome where
  | response (status : Nat)
  | transportError
  deriving DecidableEq, Repr

/-- One issued HTTP POST: the target URL and the multipart form-data parts in
append order, each a `(part name, file)` pair. -/
structure Request where
  url : String
  parts : List (String × File)
  deriving DecidableEq, Repr

/-- `Math.round((event.loaded / event.total) * 100)` over the rationals,
written with natural-number division: `round(x) = floor(x + 1/2)` and
`100 * loaded / total + 1/2 = (200 * loaded + total) / (2 * total)`. -/
def progressPercent (loaded total : Nat) : Nat :=
  (200 * loaded + total) / (2 * total)

/-- The XHR `upload.progress` listener (lines 234–240): when the event's byte
counts are usable, the rounded percentage is stored and reported via
`onUploadProgress`; otherwise nothing happens. -/
def applyProgress (st : UploaderState) (pe : ProgressInfo) :
    UploaderState × List Event :=
  if pe.lengthComputable then
    ({ st with uploadProgress := progressPercent pe.loaded pe.total },
      [Event.uploadProgress (progressPercent pe.loaded pe.total)])
  else (st, [])

/-- The sequence of `progress` events fired during the transfer, each handled
by the listener on the state left by the previous one. -/
def runProgress : UploaderState → List ProgressInfo → UploaderState × List Event
  | st, [] => (st, [])
  | st, pe :: rest =>
    ((runProgress (applyProgress st pe).1 rest).1,
      (applyProgress st pe).2 ++ (runProgress (applyProgress st pe).1 rest).2)

/-- The XHR `load` and `error` listeners (lines 242–273): a 2xx status yields
`'success'` and `onUploadSuccess(filesToUpload)`, any other status yields
`'error'` and `onUploadError` with the status code, a transport error yields
`'error'` and the network-error reason; all three clear `isUploading`. -/
def finishUpload (filesToUpload : List File) (st : UploaderState)
    (oc : TransportOutcome) : UploaderState × List Event :=
  match oc with
  | TransportOutcome.response status =>
    if 200 ≤ status ∧ status < 300 then
      ({ st with uploadStatus := Status.success, isUploading := false },
        [Event.uploadSuccess filesToUpload])
    else
      ({ st with uploadStatus := Status.error, isUploading := false },
        [Event.uploadError (UploadError.serverError status)])
  | TransportOutcome.transportError =>
    ({ st with uploadStatus := Status.error, isUploading := false },
      [Event.uploadError UploadError.networkError])

/-- `handleUpload(filesToUpload)` (lines 218–288) together with the fate of
the XHR it opens.  With no upload URL or an empty file list it returns
without touching anything; otherwise it marks the state as uploading, resets
the progress to 0, builds one `FormData` with one part named `"files"` per
file in order, issues exactly one POST, and the listeners handle the
transfer's progress events (`pes`) and its terminal outcome (`oc`).  Returns
(final state, issued requests, emitted events). -/
def runUpload (uploadUrl : Option String) (filesToUpload : List File)
    (st : UploaderState) (pes : List ProgressInfo) (oc : TransportOutcome) :
    UploaderState × List Request × List Event :=
  match uploadUrl with
  | none => (st, [], [])
  | some u =>
    if filesToUpload.length = 0 then (st, [], [])
    else
      let st0 := { st with isUploading := true,
                           uploadStatus := Status.uploading,
                           uploadProgress := 0 }
      let req : Request :=
        { url := u, parts := filesToUpload.map (fun f => ("files", f)) }
      let rp := runProgress st0 pes
      let fin := finishUpload filesToUpload rp.1 oc
      (fin.1, [req], rp.2 ++ fin.2)

/-- The subsequence of percentages reported through `onUploadProgress`. -/
def progressValues : List Event → List Nat
  | [] => []
  | Event.uploadProgress p :: rest => p :: progressValues rest
  | Event.fileSelected _ :: rest => progressValues rest
  | Event.uploadRequested _ :: rest => progressValues rest
  | Event.validationError _ :: rest => progressValues rest
  | Event.uploadSuccess _ :: rest => progressValues rest
  | Event.uploadError _ :: rest => progressValues rest

/-! ### Concrete fixtures used by witnesses and counterexamples -/

/-- The component's initial state. -/
def emptyState : UploaderState :=
  { files := [], validationErrors := [], uploadProgress := 0,
    isUploading := false, uploadStatus := Status.idle }

/-- A multiple-file configuration with limits 1000 / 1500 / 5. -/
def cfgM : Config :=
  { multiple := true, maxFileSize := 1000, maxTotalSize := 1500, maxFiles := 5,
    allowedTypes := [], allowedMimeTypes := [], autoUpload := false,
    uploadUrl := none }

/-- A single-file configuration whose total-size limit is below its per-file
limit. -/
def cfgS : Config :=
  { multiple := false, maxFileSize := 100, maxTotalSize := 50, maxFiles := 10,
    allowedTypes := [], allowedMimeTypes := [], autoUpload := false,
    uploadUrl := none }

def fA : File := { name := "a.bin", size := 600, mime := "application/x" }
def g1 : File := { name := "g1.bin", size := 10, mime := "application/x" }
def g2 : File := { name := "g2.bin", size := 20, mime := "application/x" }
def fB : File := { name := "b.bin", size := 600, mime := "application/x" }
def fC : File := { name := "c.bin", size := 400, mime := "application/x" }

/-- State already holding `fA` and `fB` (total 1200 bytes). -/
def stAB : UploaderState := { emptyState with files := [fA, fB] }

/-- Single-file configuration restricting extensions to `.png` and MIME
types to `image/png`, with `maxFileSize = 10`. -/
def cfg6 : Config :=
  { multiple := false, maxFileSize := 10, maxTotalSize := 1000,
    maxFiles := 10, allowedTypes := [".png"],
    allowedMimeTypes := ["image/png"], autoUpload := false,
    uploadUrl := none }

/-- Multiple-file configuration with `maxFiles = 1` used to exercise the
batch-reject path. -/
def cfg7 : Config :=
  { multiple := true, maxFileSize := 10, maxTotalSize := 1000, maxFiles := 1,
    allowedTypes := [], allowedMimeTypes := [], autoUpload := false,
    uploadUrl := none }

def fBad : File := { name := "bad.bin", size := 99, mime := "application/x" }
def fGood : File := { name := "good.bin", size := 1, mime := "application/x" }

/-- State already holding one small file. -/
def st7 : UploaderState :=
  { emptyState with files := [{ name := "old.bin", size := 1, mime := "application/x" }] }

/-- The state right after `setIsUploading(true)`, `setUploadStatus('uploading')`,
`setUploadProgress(0)`. -/
def startState (st : UploaderState) : UploaderState :=
  { st with
    isUploading := true
    uploadStatus := Status.uploading
    uploadProgress := 0 }

/-- A state in the middle of an upload attempt. -/
def stUp : UploaderState :=
  { files := [fGood], validationErrors := [], uploadProgress := 37,
    isUploading := true, uploadStatus := Status.uploading }

/-- Two progress events at 50 and 100 of 100 bytes. -/
def pes9 : List ProgressInfo :=
  [{ lengthComputable := true, loaded := 50, total := 100 },
   { lengthComputable := true, loaded := 100, total := 100 }]

/-! ### Helper lemmas -/

theorem recLookup_recSet_self (r : List (String × Reason)) (k : String)
    (v : Reason) : recLookup (recSet r k v) k = some v := by
  induction r with
  | nil => simp [recSet, recLookup]
  | cons p rest ih =>
    by_cases h : p.1 = k
    · simp [recSet, h, recLookup]
    · simp [recSet, h, recLookup, ih]

theorem recLookup_recSet_ne (r : List (String × Reason)) (k k' : String)
    (v : Reason) (h : k' ≠ k) :
    recLookup (recSet r k' v) k = recLookup r k := by
  induction r with
  | nil => simp [recSet, recLookup, h]
  | cons p rest ih =>
    by_cases hp : p.1 = k'
    · simp [recSet, hp, recLookup, h]
    · simp [recSet, hp, recLookup, ih]

theorem recLookup_recSet_isSome (r : List (String × Reason)) (k k' : String)
    (v : Reason) (h : (recLookup r k).isSome) :
    (recLookup (recSet r k' v) k).isSome := by
  by_cases hk : k' = k
  · subst hk; rw [recLookup_recSet_self]; rfl
  · rwa [recLookup_recSet_ne r k k' v hk]

theorem recLookup_recMerge_left (b a : List (String × Reason)) (k : String)
    (h : (recLookup a k).isSome) :
    (recLookup (recMerge a b) k).isSome := by
  induction b generalizing a with
  | nil => simpa [recMerge] using h
  | cons p rest ih =>
    show (recLookup (recMerge (recSet a p.1 p.2) rest) k).isSome
    exact ih _ (recLookup_recSet_isSome a k p.1 p.2 h)

theorem recLookup_recMerge_right (b a : List (String × Reason)) (k : String)
    (h : (recLookup b k).isSome) :
    (recLookup (recMerge a b) k).isSome := by
  induction b generalizing a with
  | nil => simp [recLookup] at h
  | cons p rest ih =>
    show (recLookup (recMerge (recSet a p.1 p.2) rest) k).isSome
    by_cases hk : p.1 = k
    · subst hk
      exact recLookup_recMerge_left rest _ p.1
        (by rw [recLookup_recSet_self]; rfl)
    · exact ih _ (by simpa [recLookup, hk] using h)

theorem processBatch_fold_valid (cfg : Config)
    (custom : Option (File → Except Unit Bool)) (batch : List File)
    (errs : List (String × Reason)) (acc : List File) :
    (List.foldl (pbStep cfg custom) (errs, acc) batch).2
      = acc ++ batch.filter (fun f => (validateOne cfg custom f).isNone) := by
  induction batch generalizing errs acc with
  | nil => simp
  | cons f rest ih =>
    cases h : validateOne cfg custom f with
    | some r => simp [pbStep, h, ih]
    | none => simp [pbStep, h, ih]

/-- `validFiles` is exactly the subsequence of the batch whose files pass
per-file validation: a rejected file never stops the loop. -/
theorem processBatch_valid (cfg : Config)
    (custom : Option (File → Except Unit Bool)) (batch : List File) :
    (processBatch cfg custom batch).2
      = batch.filter (fun f => (validateOne cfg custom f).isNone) := by
  simpa using processBatch_fold_valid cfg custom batch [] []

theorem processBatch_fold_errs_preserve (cfg : Config)
    (custom : Option (File → Except Unit Bool)) (batch : List File)
    (errs : List (String × Reason)) (acc : List File) (k : String)
    (h : (recLookup errs k).isSome) :
    (recLookup (List.foldl (pbStep cfg custom) (errs, acc) batch).1 k).isSome := by
  induction batch generalizing errs acc with
  | nil => simpa using h
  | cons f rest ih =>
    cases hv : validateOne cfg custom f with
    | some r =>
      simp only [List.foldl, pbStep, hv]
      exact ih _ _ (recLookup_recSet_isSome errs k f.name r h)
    | none =>
      simp only [List.foldl, pbStep, hv]
      exact ih _ _ h

theorem processBatch_fold_errs_mem (cfg : Config)
    (custom : Option (File → Except Unit Bool)) (batch : List File)
    (errs : List (String × Reason)) (acc : List File) (f : File) (r : Reason)
    (hmem : f ∈ batch) (hrej : validateOne cfg custom f = some r) :
    (recLookup (List.foldl (pbStep cfg custom) (errs, acc) batch).1 f.name).isSome := by
  induction batch generalizing errs acc with
  | nil => cases hmem
  | cons g rest ih =>
    rcases List.mem_cons.mp hmem with hfg | hf
    · subst hfg
      simp only [List.foldl, pbStep, hrej]
      exact processBatch_fold_errs_preserve cfg custom rest _ _ f.name
        (by rw [recLookup_recSet_self]; rfl)
    · cases hv : validateOne cfg custom g with
      | some r' =>
        simp only [List.foldl, pbStep, hv]
        exact ih _ _ hf
      | none =>
        simp only [List.foldl, pbStep, hv]
        exact ih _ _ hf

/-- Every file the loop rejects ends up keyed under its name in `newErrors`. -/
theorem processBatch_errs_mem (cfg : Config)
    (custom : Option (File → Except Unit Bool)) (batch : List File)
    (f : File) (r : Reason) (hmem : f ∈ batch)
    (hrej : validateOne cfg custom f = some r) :
    (recLookup (processBatch cfg custom batch).1 f.name).isSome :=
  processBatch_fold_errs_mem cfg custom batch [] [] f r hmem hrej

theorem processBatch_fold_errs_allvalid (cfg : Config)
    (custom : Option (File → Except Unit Bool)) (batch : List File)
    (errs : List (String × Reason)) (acc : List File)
    (h : ∀ f ∈ batch, validateOne cfg custom f = none) :
    (List.foldl (pbStep cfg custom) (errs, acc) batch).1 = errs := by
  induction batch generalizing errs acc with
  | nil => rfl
  | cons f rest ih =>
    have hf := h f (List.mem_cons_self f rest)
    simp only [List.foldl, pbStep, hf]
    exact ih _ _ (fun g hg => h g (List.mem_cons_of_mem f hg))

/-- On a batch of individually valid files the loop records no error. -/
theorem processBatch_errs_allvalid (cfg : Config)
    (custom : Option (File → Except Unit Bool)) (batch : List File)
    (h : ∀ f ∈ batch, validateOne cfg custom f = none) :
    (processBatch cfg custom batch).1 = [] :=
  processBatch_fold_errs_allvalid cfg custom batch [] [] h

theorem totalSize_fold (files : List File) (n : Nat) :
    files.foldl (fun acc f => acc + f.size) n = n + totalSize files := by
  induction files generalizing n with
  | nil => simp [totalSize]
  | cons f rest ih =>
    simp only [totalSize, List.foldl] at *
    rw [ih (n + f.size), ih (0 + f.size)]
    omega

theorem totalSize_cons (f : File) (l : List File) :
    totalSize (f :: l) = f.size + totalSize l := by
  show List.foldl (fun acc g => acc + g.size) (0 + f.size) l = _
  rw [totalSize_fold l (0 + f.size)]
  omega

theorem totalSize_append (a b : List File) :
    totalSize (a ++ b) = totalSize a + totalSize b := by
  induction a with
  | nil => simp [totalSize]
  | cons f rest ih =>
    rw [List.cons_append, totalSize_cons, totalSize_cons, ih]
    omega

theorem validateOne_size (cfg : Config)
    (custom : Option (File → Except Unit Bool)) (f : File)
    (h : cfg.maxFileSize < f.size) :
    validateOne cfg custom f = some Reason.sizeExceeded := by
  simp [validateOne, h]

theorem validateOne_ext (cfg : Config)
    (custom : Option (File → Except Unit Bool)) (f : File)
    (h1 : f.size ≤ cfg.maxFileSize) (h2 : cfg.allowedTypes ≠ [])
    (h3 : fileExtension f.name ∉ cfg.allowedTypes) :
    validateOne cfg custom f
      = some (Reason.typeNotAllowed (fileExtension f.name)) := by
  rw [validateOne.eq_def, if_neg (by omega), if_pos ⟨h2, h3⟩]

theorem validateOne_mime (cfg : Config)
    (custom : Option (File → Except Unit Bool)) (f : File)
    (h1 : f.size ≤ cfg.maxFileSize)
    (h2 : cfg.allowedTypes = [] ∨ fileExtension f.name ∈ cfg.allowedTypes)
    (h3 : cfg.allowedMimeTypes ≠ []) (h4 : f.mime ∉ cfg.allowedMimeTypes) :
    validateOne cfg custom f = some (Reason.mimeNotAllowed f.mime) := by
  have hext : ¬(cfg.allowedTypes ≠ [] ∧ fileExtension f.name ∉ cfg.allowedTypes) := by
    rcases h2 with h2 | h2
    · exact fun hx => hx.1 h2
    · exact fun hx => hx.2 h2
  rw [validateOne.eq_def, if_neg (by omega), if_neg hext, if_pos ⟨h3, h4⟩]

theorem validateOne_custom (cfg : Config) (p : File → Except Unit Bool)
    (f : File) (h1 : f.size ≤ cfg.maxFileSize)
    (h2 : cfg.allowedTypes = [] ∨ fileExtension f.name ∈ cfg.allowedTypes)
    (h3 : cfg.allowedMimeTypes = [] ∨ f.mime ∈ cfg.allowedMimeTypes)
    (hp : p f = Except.ok false) :
    validateOne cfg (some p) f = some Reason.customFailed := by
  have hext : ¬(cfg.allowedTypes ≠ [] ∧ fileExtension f.name ∉ cfg.allowedTypes) := by
    rcases h2 with h2 | h2
    · exact fun hx => hx.1 h2
    · exact fun hx => hx.2 h2
  have hmime : ¬(cfg.allowedMimeTypes ≠ [] ∧ f.mime ∉ cfg.allowedMimeTypes) := by
    rcases h3 with h3 | h3
    · exact fun hx => hx.1 h3
    · exact fun hx => hx.2 h3
  rw [validateOne.eq_def, if_neg (by omega), if_neg hext, if_neg hmime]
  simp [hp]

theorem mergeErrors_files (st : UploaderState)
    (ne : List (String × Reason)) : (mergeErrors st ne).files = st.files := by
  unfold mergeErrors; split <;> rfl

theorem replaceErrors_files (st : UploaderState)
    (ne : List (String × Reason)) :
    (replaceErrors st ne).files = st.files := by
  unfold replaceErrors; split <;> rfl

theorem mergeErrors_pos (st : UploaderState) (ne : List (String × Reason))
    (h : 0 < ne.length) :
    (mergeErrors st ne).validationErrors
      = recMerge st.validationErrors ne := by
  unfold mergeErrors; rw [if_pos h]

theorem replaceErrors_pos (st : UploaderState) (ne : List (String × Reason))
    (h : 0 < ne.length) : (replaceErrors st ne).validationErrors = ne := by
  unfold replaceErrors; rw [if_pos h]

theorem addValid_files (st : UploaderState) (vf : List File) :
    (addValid st vf).files = st.files ++ vf := by
  unfold addValid
  split
  · rfl
  · next h =>
    have : vf = [] := List.length_eq_zero.mp (by omega)
    simp [this]

/-- Admitting a batch in multiple-file mode preserves the count and
total-size bounds: the rejecting branches leave the state alone and the
admitting branch has just checked the new totals. -/
theorem multiAdmit_invariant (cfg : Config) (st : UploaderState)
    (ne : List (String × Reason)) (vf : List File)
    (hc : st.files.length ≤ cfg.maxFiles)
    (hs : totalSize st.files ≤ cfg.maxTotalSize) :
    (multiAdmit cfg st ne vf).1.files.length ≤ cfg.maxFiles ∧
    totalSize (multiAdmit cfg st ne vf).1.files ≤ cfg.maxTotalSize := by
  unfold multiAdmit
  split
  · exact ⟨hc, hs⟩
  · split
    · exact ⟨hc, hs⟩
    · next h1 h2 =>
      constructor
      · rw [mergeErrors_files, addValid_files, List.length_append]
        omega
      · rw [mergeErrors_files, addValid_files, totalSize_append]
        omega

theorem runProgress_events (st : UploaderState) (pes : List ProgressInfo) :
    (runProgress st pes).2
      = pes.filterMap (fun pe =>
          if pe.lengthComputable then
            some (Event.uploadProgress (progressPercent pe.loaded pe.total))
          else none) := by
  induction pes generalizing st with
  | nil => rfl
  | cons pe rest ih =>
    cases hc : pe.lengthComputable with
    | true => simp [runProgress, applyProgress, hc, ih]
    | false => simp [runProgress, applyProgress, hc, ih]

theorem progressValues_append (a b : List Event) :
    progressValues (a ++ b) = progressValues a ++ progressValues b := by
  induction a with
  | nil => rfl
  | cons e rest ih => cases e <;> simp [progressValues, ih]

theorem progressValues_filterMap (pes : List ProgressInfo)
    (h : ∀ pe ∈ pes, pe.lengthComputable = true) :
    progressValues (pes.filterMap (fun pe =>
        if pe.lengthComputable then
          some (Event.uploadProgress (progressPercent pe.loaded pe.total))
        else none))
      = pes.map (fun pe => progressPercent pe.loaded pe.total) := by
  induction pes with
  | nil => rfl
  | cons pe rest ih =>
    have hc := h pe (List.mem_cons_self pe rest)
    simp only [List.filterMap_cons, hc, if_true, List.map_cons, progressValues]
    rw [ih (fun q hq => h q (List.mem_cons_of_mem pe hq))]

theorem progressPercent_mono (t a b : Nat) (h : a ≤ b) :
    progressPercent a t ≤ progressPercent b t :=
  Nat.div_le_div_right (by omega)

theorem progressPercent_le_100 (loaded t : Nat) (ht : 0 < t)
    (h : loaded ≤ t) : progressPercent loaded t ≤ 100 := by
  have h2 : 0 < 2 * t := by omega
  have hx := (Nat.div_lt_iff_lt_mul h2).mpr
    (show 200 * loaded + t < 101 * (2 * t) by omega)
  unfold progressPercent
  omega

theorem progressPercent_total (t : Nat) (ht : 0 < t) :
    progressPercent t t = 100 := by
  unfold progressPercent
  have h2 : 0 < 2 * t := by omega
  have hlo : 100 ≤ (200 * t + t) / (2 * t) :=
    (Nat.le_div_iff_mul_le h2).mpr (by omega)
  have hhi : (200 * t + t) / (2 * t) < 101 :=
    (Nat.div_lt_iff_lt_mul h2).mpr (by omega)
  omega


theorem handleFileChange_multi (cfg : Config)
    (custom : Option (File → Except Unit Bool)) (st : UploaderState)
    (batch : List File) (hm : cfg.multiple = true) :
    handleFileChange cfg custom st (some batch)
      = multiAdmit cfg st (processBatch cfg custom batch).1
          (processBatch cfg custom batch).2 := by
  simp [handleFileChange, hm]

theorem handleFileChange_single (cfg : Config)
    (custom : Option (File → Except Unit Bool)) (st : UploaderState)
    (batch : List File) (hm : cfg.multiple = false) :
    handleFileChange cfg custom st (some batch)
      = singleAdmit cfg st (processBatch cfg custom batch).1
          (processBatch cfg custom batch).2 := by
  simp [handleFileChange, hm]

/-! ### Claims -/

/-- C1: in multiple-file mode, a batch of individually valid files whose
admission would push the selection count above `maxFiles` (resp. the total
size above `maxTotalSize`, when the count fits) is rejected as a whole: the
state — `files` and `validationErrors` alike — is returned untouched and the
only event is the distinct batch error naming the violated limit
(`tooManyFiles` for the count, `totalSizeExceeded` for the size).  No file of
the batch is admitted on its own. -/
theorem batch_limit_rejection (cfg : Config)
    (custom : Option (File → Except Unit Bool)) (st : UploaderState)
    (batch : List File) (hm : cfg.multiple = true)
    (hv : ∀ f ∈ batch, validateOne cfg custom f = none) :
    (cfg.maxFiles < st.files.length + batch.length →
      handleFileChange cfg custom st (some batch)
        = (st, [Event.validationError VError.tooManyFiles])) ∧
    (st.files.length + batch.length ≤ cfg.maxFiles →
      cfg.maxTotalSize < totalSize st.files + totalSize batch →
      handleFileChange cfg custom st (some batch)
        = (st, [Event.validationError VError.totalSizeExceeded])) := by
  have hvb : (processBatch cfg custom batch).2 = batch := by
    rw [processBatch_valid]
    refine List.filter_eq_self.mpr ?_
    intro f hf
    rw [hv f hf]
    rfl
  constructor
  · intro h
    rw [handleFileChange_multi cfg custom st batch hm, hvb]
    unfold multiAdmit
    rw [if_pos h]
  · intro h1 h2
    rw [handleFileChange_multi cfg custom st batch hm, hvb]
    unfold multiAdmit
    rw [if_neg (by omega), if_pos h2]

/-- C1 witness: with limits `{maxFileSize 1000, maxTotalSize 1500, maxFiles
5}` and `[fA(600), fB(600)]` already selected, selecting `[fC(400)]` keeps
the count within `maxFiles` but pushes the total to 1600 > 1500: the state is
unchanged and only `totalSizeExceeded` is raised. -/
theorem batch_limit_rejection_witness :
    handleFileChange cfgM none stAB (some [fC])
      = (stAB, [Event.validationError VError.totalSizeExceeded]) :=
  (batch_limit_rejection cfgM none stAB [fC] rfl
    (by intro f hf; fin_cases hf; decide)).2 (by decide) (by decide)

/-- C2 counterexample: in single-file mode a successful add violates the
claimed invariant.  With `maxFileSize = 100` but `maxTotalSize = 50`, the
80-byte file `f2c` passes per-file validation and (single mode applying no
batch check) is admitted, after which the selection's total size 80 exceeds
`maxTotalSize = 50`.  The claim's words "in any mode, single or multiple"
are therefore false on the code. -/
theorem single_mode_invariant_violation :
    (handleFileChange cfgS none emptyState
        (some [{ name := "big.bin", size := 80, mime := "application/x" }])).1.files
      = [{ name := "big.bin", size := 80, mime := "application/x" }] ∧
    cfgS.maxTotalSize
      < totalSize (handleFileChange cfgS none emptyState
          (some [{ name := "big.bin", size := 80, mime := "application/x" }])).1.files := by
  constructor
  · decide
  · decide

/-- C2 (amended to multiple-file mode): in multiple-file mode, if the
selection satisfies both bounds before `handleFileChange`, it satisfies them
after it — every successful add re-establishes `count ≤ maxFiles` and
`total size ≤ maxTotalSize`, and violating batches are rejected without
being admitted in part.  (Single-file mode is excluded: it applies no batch
check, as the counterexample shows.) -/
theorem multi_mode_invariant (cfg : Config)
    (custom : Option (File → Except Unit Bool)) (st : UploaderState)
    (sel : Option (List File)) (hm : cfg.multiple = true)
    (hc : st.files.length ≤ cfg.maxFiles)
    (hs : totalSize st.files ≤ cfg.maxTotalSize) :
    (handleFileChange cfg custom st sel).1.files.length ≤ cfg.maxFiles ∧
    totalSize (handleFileChange cfg custom st sel).1.files ≤ cfg.maxTotalSize := by
  cases sel with
  | none => exact ⟨hc, hs⟩
  | some batch =>
    rw [handleFileChange_multi cfg custom st batch hm]
    exact multiAdmit_invariant cfg st _ _ hc hs

/-- C2 witness: admitting `[fC]` on top of `[fA, fB]` under `cfgM` keeps both
bounds (here by rejecting the batch). -/
theorem multi_mode_invariant_witness :
    (handleFileChange cfgM none stAB (some [fC])).1.files.length ≤ cfgM.maxFiles ∧
    totalSize (handleFileChange cfgM none stAB (some [fC])).1.files
      ≤ cfgM.maxTotalSize :=
  multi_mode_invariant cfgM none stAB (some [fC]) rfl (by decide) (by decide)

/-- C3: in single-file mode a valid selected file fully replaces the previous
selection — afterwards `files` is exactly `[f]`, of length 1 — and no
`maxFiles`/`maxTotalSize` batch check is applied: the statement holds for
every configuration with `multiple = false`, including ones whose `maxFiles`
or `maxTotalSize` the new selection would violate. -/
theorem single_mode_replace (cfg : Config)
    (custom : Option (File → Except Unit Bool)) (st : UploaderState)
    (f : File) (hm : cfg.multiple = false)
    (hv : validateOne cfg custom f = none) :
    (handleFileChange cfg custom st (some [f])).1.files = [f] ∧
    (handleFileChange cfg custom st (some [f])).1.files.length = 1 := by
  have hpb : processBatch cfg custom [f] = ([], [f]) := by
    simp [processBatch, pbStep, hv]
  rw [handleFileChange_single cfg custom st [f] hm, hpb]
  unfold singleAdmit
  constructor
  · rw [replaceErrors_files]
  · rw [replaceErrors_files]
    rfl

/-- C3 witness: under `cfgS` (whose `maxTotalSize` the 80-byte file even
exceeds) the valid file replaces the prior selection and the set has exactly
one element. -/
theorem single_mode_replace_witness :
    (handleFileChange cfgS none stAB
        (some [{ name := "big.bin", size := 80, mime := "application/x" }])).1.files
      = [{ name := "big.bin", size := 80, mime := "application/x" }] ∧
    (handleFileChange cfgS none stAB
        (some [{ name := "big.bin", size := 80, mime := "application/x" }])).1.files.length
      = 1 :=
  single_mode_replace cfgS none stAB
    { name := "big.bin", size := 80, mime := "application/x" } rfl (by decide)

/-- C10: in single-file mode `setFiles(validFiles)` makes the new selection
exactly the valid files of the incoming batch: when no file of the batch
passes validation the previous selection is replaced by the empty set, and
when several files pass (e.g. via drag-and-drop) all of them become the
selection rather than exactly one. -/
theorem single_mode_tracks_valid (cfg : Config)
    (custom : Option (File → Except Unit Bool)) (st : UploaderState)
    (batch : List File) (hm : cfg.multiple = false) :
    ((∀ f ∈ batch, (validateOne cfg custom f).isSome) →
      (handleFileChange cfg custom st (some batch)).1.files = []) ∧
    (handleFileChange cfg custom st (some batch)).1.files
      = batch.filter (fun f => (validateOne cfg custom f).isNone) := by
  have hfiles : (handleFileChange cfg custom st (some batch)).1.files
      = (processBatch cfg custom batch).2 := by
    rw [handleFileChange_single cfg custom st batch hm]
    unfold singleAdmit
    rw [replaceErrors_files]
  constructor
  · intro hall
    rw [hfiles, processBatch_valid]
    refine List.filter_eq_nil_iff.mpr ?_
    intro f hf
    have hsome := hall f hf
    cases h : validateOne cfg custom f with
    | none => rw [h] at hsome; simp at hsome
    | some r => simp [h]
  · rw [hfiles, processBatch_valid]

/-- C10 witness: under `cfgS`, a batch whose only file is oversized empties
the selection held in `stAB`, and a two-valid-file batch makes both files the
new selection. -/
theorem single_mode_tracks_valid_witness :
    (handleFileChange cfgS none stAB
        (some [{ name := "huge.bin", size := 200, mime := "application/x" }])).1.files
      = [] ∧
    (handleFileChange cfgS none stAB (some [g1, g2])).1.files = [g1, g2] := by
  constructor
  · exact (single_mode_tracks_valid cfgS none stAB
      [{ name := "huge.bin", size := 200, mime := "application/x" }] rfl).1
      (by intro f hf; fin_cases hf; decide)
  · have h := (single_mode_tracks_valid cfgS none stAB [g1, g2] rfl).2
    rw [h]
    decide

/-- C5: per-file validation applies its checks in a fixed order — size
against `maxFileSize`, then extension membership in `allowedTypes` when that
list is non-empty, then MIME membership in `allowedMimeTypes` when that list
is non-empty, then the optional custom validator — short-circuiting on the
first failure.  In particular an oversized file is rejected with the
size-exceeded reason whatever its extension or MIME type. -/
theorem validation_order (cfg : Config)
    (custom : Option (File → Except Unit Bool)) (f : File) :
    (cfg.maxFileSize < f.size →
      validateOne cfg custom f = some Reason.sizeExceeded) ∧
    (f.size ≤ cfg.maxFileSize → cfg.allowedTypes ≠ [] →
      fileExtension f.name ∉ cfg.allowedTypes →
      validateOne cfg custom f
        = some (Reason.typeNotAllowed (fileExtension f.name))) ∧
    (f.size ≤ cfg.maxFileSize →
      (cfg.allowedTypes = [] ∨ fileExtension f.name ∈ cfg.allowedTypes) →
      cfg.allowedMimeTypes ≠ [] → f.mime ∉ cfg.allowedMimeTypes →
      validateOne cfg custom f = some (Reason.mimeNotAllowed f.mime)) ∧
    (∀ p, f.size ≤ cfg.maxFileSize →
      (cfg.allowedTypes = [] ∨ fileExtension f.name ∈ cfg.allowedTypes) →
      (cfg.allowedMimeTypes = [] ∨ f.mime ∈ cfg.allowedMimeTypes) →
      custom = some p → p f = Except.ok false →
      validateOne cfg custom f = some Reason.customFailed) := by
  refine ⟨?_, ?_, ?_, ?_⟩
  · exact fun h => validateOne_size cfg custom f h
  · exact fun h1 h2 h3 => validateOne_ext cfg custom f h1 h2 h3
  · exact fun h1 h2 h3 h4 => validateOne_mime cfg custom f h1 h2 h3 h4
  · intro p h1 h2 h3 hc hp
    subst hc
    exact validateOne_custom cfg p f h1 h2 h3 hp

/-- C5 witness: an oversized file with an allowed MIME type and a disallowed
extension is rejected for its size alone. -/
theorem validation_order_witness :
    validateOne
        { multiple := false, maxFileSize := 10, maxTotalSize := 1000,
          maxFiles := 10, allowedTypes := [".png"],
          allowedMimeTypes := ["image/png"], autoUpload := false,
          uploadUrl := none } none
        { name := "a.txt", size := 20, mime := "image/png" }
      = some Reason.sizeExceeded :=
  (validation_order
    { multiple := false, maxFileSize := 10, maxTotalSize := 1000,
      maxFiles := 10, allowedTypes := [".png"],
      allowedMimeTypes := ["image/png"], autoUpload := false,
      uploadUrl := none } none
    { name := "a.txt", size := 20, mime := "image/png" }).1 (by decide)

/-- C6 counterexample: `a.txt` (20 bytes, MIME `image/png`) has an extension
outside `allowedTypes` and a MIME type inside `allowedMimeTypes`, yet it is
rejected with the size-exceeded reason, not the type-not-allowed one: the
size check precedes the extension check, so the claim's "every file … is
rejected with TypeNotAllowed" fails on oversized files. -/
theorem size_shadows_ext_check :
    cfg6.allowedTypes ≠ [] ∧
    fileExtension "a.txt" ∉ cfg6.allowedTypes ∧
    "image/png" ∈ cfg6.allowedMimeTypes ∧
    validateOne cfg6 none { name := "a.txt", size := 20, mime := "image/png" }
      = some Reason.sizeExceeded ∧
    validateOne cfg6 none { name := "a.txt", size := 20, mime := "image/png" }
      ≠ some (Reason.typeNotAllowed (fileExtension "a.txt")) := by
  refine ⟨by decide, by decide, by decide, by decide, by decide⟩

/-- C6 (amended with the size precondition the check order forces): when
`allowedTypes` is non-empty, every file whose size is within `maxFileSize`
and whose extension — the lower-cased suffix after the last `'.'` of its
name — is not a member of `allowedTypes` is rejected with the
type-not-allowed reason, irrespective of its declared MIME type (the MIME
list is unconstrained here, so in particular even when the MIME type is a
member of `allowedMimeTypes`). -/
theorem ext_check_rejects (cfg : Config)
    (custom : Option (File → Except Unit Bool)) (f : File)
    (hsize : f.size ≤ cfg.maxFileSize) (hne : cfg.allowedTypes ≠ [])
    (hext : fileExtension f.name ∉ cfg.allowedTypes) :
    validateOne cfg custom f
      = some (Reason.typeNotAllowed (fileExtension f.name)) :=
  validateOne_ext cfg custom f hsize hne hext

/-- C6 witness: `b.txt` (5 bytes, MIME `image/png`) is within the size limit
and is rejected with the type-not-allowed reason despite its allowed MIME
type. -/
theorem ext_check_rejects_witness :
    validateOne cfg6 none { name := "b.txt", size := 5, mime := "image/png" }
      = some (Reason.typeNotAllowed
          (fileExtension ("b.txt" : String))) :=
  ext_check_rejects cfg6 none
    { name := "b.txt", size := 5, mime := "image/png" }
    (by decide) (by decide) (by decide)


/-- C7 counterexample: in multiple-file mode with `maxFiles = 1` and one file
already selected, the batch `[fBad(99 > maxFileSize), fGood(1)]` is rejected
by the count check; the early return discards `newErrors`, so `fBad`'s
per-file rejection is never surfaced — the only event is `tooManyFiles` and
the state's error map stays empty. -/
theorem batch_reject_drops_file_errors :
    (validateOne cfg7 none fBad).isSome ∧
    handleFileChange cfg7 none st7 (some [fBad, fGood])
      = (st7, [Event.validationError VError.tooManyFiles]) ∧
    recLookup (handleFileChange cfg7 none st7 (some [fBad, fGood])).1.validationErrors
        fBad.name
      = none := by
  refine ⟨by decide, by decide, by decide⟩

/-- C7 (amended): a rejected file never stops the loop — `validFiles` is
exactly the valid subsequence of the batch — and every per-file rejection is
surfaced in the state's filename-to-reason map provided the batch is not
discarded by a multiple-mode aggregate-limit rejection (in single-file mode
there is no such check, so rejections are always surfaced there). -/
theorem errors_collected (cfg : Config)
    (custom : Option (File → Except Unit Bool)) (st : UploaderState)
    (batch : List File) (f : File) (r : Reason)
    (hmem : f ∈ batch) (hrej : validateOne cfg custom f = some r)
    (hnorej : cfg.multiple = false ∨
      (cfg.multiple = true ∧
        st.files.length + (processBatch cfg custom batch).2.length ≤ cfg.maxFiles ∧
        totalSize st.files + totalSize (processBatch cfg custom batch).2
          ≤ cfg.maxTotalSize)) :
    (processBatch cfg custom batch).2
      = batch.filter (fun g => (validateOne cfg custom g).isNone) ∧
    (recLookup (handleFileChange cfg custom st (some batch)).1.validationErrors
        f.name).isSome := by
  refine ⟨processBatch_valid cfg custom batch, ?_⟩
  have hkey : (recLookup (processBatch cfg custom batch).1 f.name).isSome :=
    processBatch_errs_mem cfg custom batch f r hmem hrej
  have hlen : 0 < (processBatch cfg custom batch).1.length := by
    cases hne : (processBatch cfg custom batch).1 with
    | nil => rw [hne] at hkey; simp [recLookup] at hkey
    | cons p rest => simp
  rcases hnorej with hm | ⟨hm, hcnt, hsz⟩
  · rw [handleFileChange_single cfg custom st batch hm]
    unfold singleAdmit
    rw [replaceErrors_pos _ _ hlen]
    exact hkey
  · rw [handleFileChange_multi cfg custom st batch hm]
    unfold multiAdmit
    rw [if_neg (by omega), if_neg (by omega)]
    rw [mergeErrors_pos _ _ hlen]
    exact recLookup_recMerge_right _ _ _ hkey

/-- C7 witness: in single-file mode, the rejection of the oversized `fBad`
is surfaced under its filename while the accompanying valid `fGood` is still
admitted. -/
theorem errors_collected_witness :
    (processBatch { cfg7 with multiple := false } none [fBad, fGood]).2
      = [fBad, fGood].filter
          (fun g => (validateOne { cfg7 with multiple := false } none g).isNone) ∧
    (recLookup (handleFileChange { cfg7 with multiple := false } none emptyState
        (some [fBad, fGood])).1.validationErrors fBad.name).isSome := by
  have h := errors_collected { cfg7 with multiple := false } none emptyState
    [fBad, fGood] fBad Reason.sizeExceeded (by decide) (by decide) (Or.inl rfl)
  exact h


theorem chain_percent (t : Nat) (pes : List ProgressInfo)
    (hall : ∀ pe ∈ pes, pe.total = t)
    (hmono : List.Chain' (fun a b => a.loaded ≤ b.loaded) pes) :
    List.Chain' (fun a b => a ≤ b)
      (pes.map (fun pe => progressPercent pe.loaded pe.total)) := by
  induction pes with
  | nil => simp
  | cons pe rest ih =>
    cases rest with
    | nil => simp
    | cons pe2 rest2 =>
      rw [List.map_cons, List.map_cons]
      rcases List.chain'_cons.mp hmono with ⟨h12, hrest⟩
      refine List.chain'_cons.mpr ⟨?_, ?_⟩
      · rw [hall pe (by simp), hall pe2 (by simp)]
        exact progressPercent_mono t _ _ h12
      · have hr := ih (fun q hq => hall q (List.mem_cons_of_mem pe hq)) hrest
        rw [List.map_cons] at hr
        exact hr

/-- C4 counterexample: invoking the upload operation with zero files issues
no POST request at all (the guard returns before `xhr.open`), so "uploading
N files issues exactly one HTTP POST" fails at N = 0. -/
theorem empty_upload_no_request :
    runUpload (some "u") [] emptyState [] (TransportOutcome.response 200)
      = (emptyState, [], []) ∧
    (runUpload (some "u") [] emptyState []
        (TransportOutcome.response 200)).2.1.length ≠ 1 := by
  refine ⟨by decide, by decide⟩

/-- C4 (amended to N ≥ 1): uploading a non-empty selection of N files to a
configured URL issues exactly one HTTP POST carrying one part named
`"files"` per file, in selection order; a response status in [200, 300)
yields the success state and `onUploadSuccess` with the same N files as the
final event; any other status yields the error state with a reason carrying
the status code; a transport-level failure yields the error state with the
network-failure reason.  (With an empty selection no request is issued, as
the counterexample shows.) -/
theorem upload_lifecycle (u : String) (files : List File)
    (st : UploaderState) (pes : List ProgressInfo) (hn : 0 < files.length) :
    (∀ oc, (runUpload (some u) files st pes oc).2.1
        = [{ url := u, parts := files.map (fun f => ("files", f)) }]) ∧
    (∀ s, 200 ≤ s → s < 300 →
      (runUpload (some u) files st pes
          (TransportOutcome.response s)).1.uploadStatus = Status.success ∧
      ((runUpload (some u) files st pes
          (TransportOutcome.response s)).2.2).getLast?
        = some (Event.uploadSuccess files)) ∧
    (∀ s, s < 200 ∨ 300 ≤ s →
      (runUpload (some u) files st pes
          (TransportOutcome.response s)).1.uploadStatus = Status.error ∧
      ((runUpload (some u) files st pes
          (TransportOutcome.response s)).2.2).getLast?
        = some (Event.uploadError (UploadError.serverError s))) ∧
    ((runUpload (some u) files st pes
        TransportOutcome.transportError).1.uploadStatus = Status.error ∧
      ((runUpload (some u) files st pes
          TransportOutcome.transportError).2.2).getLast?
        = some (Event.uploadError UploadError.networkError)) := by
  have hne : ¬files.length = 0 := by omega
  refine ⟨?_, ?_, ?_, ?_⟩
  · intro oc
    simp [runUpload, hne]
  · intro s h1 h2
    constructor
    · simp [runUpload, hne, finishUpload, h1, h2]
    · simp [runUpload, hne, finishUpload, h1, h2, List.getLast?_concat]
  · intro s hs
    have hcond : ¬(200 ≤ s ∧ s < 300) := by omega
    constructor
    · simp [runUpload, hne, finishUpload, hcond]
    · simp [runUpload, hne, finishUpload, hcond, List.getLast?_concat]
  · constructor
    · simp [runUpload, hne, finishUpload]
    · simp [runUpload, hne, finishUpload, List.getLast?_concat]

/-- C4 witness: uploading `[fGood]` to `"u"` issues the single expected
request, and a 200 response ends in the success state. -/
theorem upload_lifecycle_witness :
    (runUpload (some "u") [fGood] emptyState []
        (TransportOutcome.response 200)).2.1
      = [{ url := "u", parts := [("files", fGood)] }] ∧
    (runUpload (some "u") [fGood] emptyState []
        (TransportOutcome.response 200)).1.uploadStatus = Status.success := by
  have h := upload_lifecycle "u" [fGood] emptyState [] (by decide)
  exact ⟨h.1 (TransportOutcome.response 200), (h.2.1 200 (by decide) (by decide)).1⟩


/-- C8 counterexample: `handleUpload` contains no in-flight guard — its only
guard is `!uploadUrl || filesToUpload.length === 0` — so invoking it while
the state is mid-upload (`isUploading`, status `'uploading'`) is not a no-op:
it issues another HTTP request and rewrites the in-flight attempt's state
(progress is reset to 0 and the terminal handlers overwrite the status). -/
theorem upload_reentry_not_noop :
    stUp.isUploading = true ∧ stUp.uploadStatus = Status.uploading ∧
    (runUpload (some "u") [fGood] stUp []
        (TransportOutcome.response 500)).2.1.length = 1 ∧
    (runUpload (some "u") [fGood] stUp []
        (TransportOutcome.response 500)).1 ≠ stUp := by
  refine ⟨rfl, rfl, by decide, by decide⟩

/-- C8 (amended): `handleUpload` applies no in-flight guard.  Invoking the
upload operation while an attempt is in flight (state `isUploading`) starts
another HTTP request exactly as from idle; only the UI's upload button is
disabled while uploading, nothing in `handleUpload` itself.  (Reachable
without the button: `autoUpload` invokes `handleUpload` from
`handleFileChange` regardless of `isUploading`.) -/
theorem upload_no_inflight_guard (u : String) (files : List File)
    (st : UploaderState) (pes : List ProgressInfo) (oc : TransportOutcome)
    (_hin : st.isUploading = true) (hn : 0 < files.length) :
    (runUpload (some u) files st pes oc).2.1
      = [{ url := u, parts := files.map (fun f => ("files", f)) }] := by
  have hne : ¬files.length = 0 := by omega
  simp [runUpload, hne]

/-- C8 witness: re-invoking the upload on the mid-upload state `stUp` issues
a fresh request. -/
theorem upload_no_inflight_guard_witness :
    (runUpload (some "u") [fGood] stUp []
        (TransportOutcome.response 500)).2.1
      = [{ url := "u", parts := [("files", fGood)] }] :=
  upload_no_inflight_guard "u" [fGood] stUp [] (TransportOutcome.response 500)
    rfl (by decide)

/-- C9: during one upload attempt whose transport reports usable byte counts
(`lengthComputable`, a fixed positive total `t`, `loaded ≤ t`), the reported
percentages are exactly the rounded ratios `round(100 * loaded / total)` —
integers, hence in 0..100 — the reported sequence is non-decreasing whenever
the byte counts are, and when the transport's final progress event reports
`loaded = total` (as it does on a completed transfer) the sequence ends at
100; this holds in particular for the successful outcome. -/
theorem progress_reporting (u : String) (files : List File)
    (st : UploaderState) (pes : List ProgressInfo) (oc : TransportOutcome)
    (t : Nat) (hn : 0 < files.length) (ht : 0 < t)
    (hall : ∀ pe ∈ pes,
      pe.lengthComputable = true ∧ pe.total = t ∧ pe.loaded ≤ t)
    (hmono : List.Chain' (fun a b => a.loaded ≤ b.loaded) pes) :
    progressValues (runUpload (some u) files st pes oc).2.2
      = pes.map (fun pe => progressPercent pe.loaded pe.total) ∧
    List.Chain' (fun a b => a ≤ b)
      (progressValues (runUpload (some u) files st pes oc).2.2) ∧
    (∀ p ∈ progressValues (runUpload (some u) files st pes oc).2.2,
      p ≤ 100) ∧
    (∀ pe, pes.getLast? = some pe → pe.loaded = t →
      (progressValues (runUpload (some u) files st pes oc).2.2).getLast?
        = some 100) := by
  have hne : ¬files.length = 0 := by omega
  have hevs : (runUpload (some u) files st pes oc).2.2
      = (runProgress (startState st) pes).2
        ++ (finishUpload files (runProgress (startState st) pes).1 oc).2 := by
    simp [runUpload, startState, hne]
  have hnoprog : ∀ s' : UploaderState,
      progressValues (finishUpload files s' oc).2 = [] := by
    intro s'
    cases oc with
    | response s =>
      by_cases hs : 200 ≤ s ∧ s < 300 <;>
        simp [finishUpload, hs, progressValues]
    | transportError => simp [finishUpload, progressValues]
  have hmain : progressValues (runUpload (some u) files st pes oc).2.2
      = pes.map (fun pe => progressPercent pe.loaded pe.total) := by
    rw [hevs, progressValues_append, hnoprog, List.append_nil,
      runProgress_events]
    exact progressValues_filterMap pes (fun pe hpe => (hall pe hpe).1)
  refine ⟨hmain, ?_, ?_, ?_⟩
  · rw [hmain]
    exact chain_percent t pes (fun pe hpe => (hall pe hpe).2.1) hmono
  · intro p hp
    rw [hmain] at hp
    rcases List.mem_map.mp hp with ⟨pe, hpe, rfl⟩
    rcases hall pe hpe with ⟨_, hTot, hLoad⟩
    rw [hTot]
    exact progressPercent_le_100 pe.loaded t ht (by omega)
  · intro pe hlastEq hload
    have hmem : pe ∈ pes := by
      rcases List.getLast?_eq_some_iff.mp hlastEq with ⟨l', rfl⟩
      exact List.mem_append_right l' (by simp)
    rcases hall pe hmem with ⟨_, hTot, _⟩
    rw [hmain, List.getLast?_map, hlastEq]
    show some (progressPercent pe.loaded pe.total) = some 100
    rw [hload, hTot, progressPercent_total t ht]


/-- C9 witness: a successful upload of `[fGood]` with byte counts 50/100
then 100/100 reports `[50, 100]`, ending at 100. -/
theorem progress_reporting_witness :
    progressValues (runUpload (some "u") [fGood] emptyState pes9
        (TransportOutcome.response 200)).2.2 = [50, 100] ∧
    (progressValues (runUpload (some "u") [fGood] emptyState pes9
        (TransportOutcome.response 200)).2.2).getLast? = some 100 := by
  have h := progress_reporting "u" [fGood] emptyState pes9
    (TransportOutcome.response 200) 100 (by decide) (by decide)
    (by intro pe hpe; fin_cases hpe <;> exact ⟨rfl, rfl, by decide⟩)
    (by unfold pes9; exact List.chain'_pair.mpr (by decide))
  constructor
  · rw [h.1]
    decide
  · exact h.2.2.2 { lengthComputable := true, loaded := 100, total := 100 }
      (by decide) rfl

end FileUplift
